import Mathlib

/-!
Verification of the portfolio-optimization core of the financial-advisor
repository.  The Python sources are shallowly embedded over `ℚ`:

* `advanced/api_fastapi/main.py` — HHI, concentration repair, mean-variance
  optimization and the `/optimize` / `/risk-metrics` endpoint handlers;
* `scripts/bench_compare_mv_cvar.py` — CVaR optimization and the
  VaR/CVaR portfolio metrics;
* `advanced/utils/mlflow_logger.py` — the fire-and-forget logging sink.

External collaborators (the cvxpy solver backends, the MLflow client) are
modelled as explicit outcome parameters: each call site of an external
capability takes the capability's observable result as an argument, and the
embedded control flow around it is taken verbatim from the source.
-/

namespace Engine

/-- A Python `dict[str, float]` of portfolio weights, as an association list. -/
abbrev Weights := List (String × ℚ)

/-- `np.dot` of two vectors (the source always applies it to equal-length
vectors; `zipWith` truncates like `zip(..., strict=False)` would). -/
def dot (a b : List ℚ) : ℚ := (List.zipWith (· * ·) a b).sum

/-- `np.dot(w, np.dot(sigma, w))` = `w ⬝ (Σ w)`, the quadratic form used both
for the cvxpy objective `cp.quad_form(w, sigma)` and for the reported
portfolio variance in `optimize_portfolio`. -/
def quadForm (w : List ℚ) (sigma : List (List ℚ)) : ℚ :=
  dot w (sigma.map (fun row => dot row w))

/-- `compute_hhi` from `advanced/api_fastapi/main.py` (lines 155-158):
`np.sum(np.array(list(weights.values())) ** 2)`. -/
def compute_hhi (weights : Weights) : ℚ :=
  ((weights.map Prod.snd).map (fun x => x ^ 2)).sum

/-- Observable result of one external `problem.solve(...)` attempt inside the
solver cascade: `optimal w` stands for status `cp.OPTIMAL` with solution
vector `w`; `failed` stands for any non-optimal status or a raised
backend-internal exception (the source treats both by moving on). -/
inductive SolverOutcome where
  | optimal (w : List ℚ)
  | failed
deriving DecidableEq

/-- `concentration_repair` from `advanced/api_fastapi/main.py`
(lines 161-234), abstracted over the outcomes of the ordered solver cascade
`[cp.CLARABEL, cp.SCS, cp.OSQP]`.  The loop returns
`{asset: w.value[i]}` on the first `cp.OPTIMAL` status and continues on any
other status or exception; when the list is exhausted (and likewise in the
outer `except` clause) it returns the input `weights` dict unchanged — the
function never lets an exception escape and returns a bare weight map with
no status field of any kind. -/
def concentration_repair (weights : Weights) (attempts : List SolverOutcome) :
    Weights :=
  match attempts with
  | [] => weights
  | .optimal v :: _ => (weights.map Prod.fst).zip v
  | .failed :: rest => concentration_repair weights rest

/-- `np.ones(n) / n`, the deterministic fallback vector. -/
def equal_weights (n : ℕ) : List ℚ := List.replicate n (1 / (n : ℚ))

/-- A Python exception escaping one of the modelled functions. -/
inductive PyError where
  /-- `request.expected_returns[asset]` with a missing key. -/
  | keyError
  /-- `fastapi.HTTPException(code, msg)`. -/
  | httpError (code : ℕ) (msg : String)
  /-- cvxpy expression construction failure: `cp.quad_form(w, sigma)` raises
  (outside the `try` of `mean_variance_optimize`) when `sigma` is not
  symmetric. -/
  | valueError
  /-- an exception escaping the MLflow logging sink. -/
  | mlflowError
deriving DecidableEq

/-- `mean_variance_optimize` from `advanced/api_fastapi/main.py`
(lines 237-284).  The expression build `cp.quad_form(w, sigma)` happens
before the `try` block, so an exception there propagates
(`quad_form_raises`); the `problem.solve(solver=cp.ECOS)` call is inside the
`try`, and any non-optimal status or solver exception yields the
`np.ones(n) / n` fallback. -/
def mean_variance_optimize (n : ℕ) (quad_form_raises : Bool)
    (solve : SolverOutcome) : Except PyError (List ℚ) :=
  if quad_form_raises then .error .valueError
  else
    match solve with
    | .optimal w => .ok w
    | .failed => .ok (equal_weights n)

/-- `cvar_optimize` from `scripts/bench_compare_mv_cvar.py` (lines 46-89):
returns the solver's weights on `cp.OPTIMAL` and `np.ones(n) / n` on any
other status or exception. -/
def cvar_optimize (n_assets : ℕ) (solve : SolverOutcome) : List ℚ :=
  match solve with
  | .optimal w => w
  | .failed => equal_weights n_assets

/-- `portfolio_weights.get(asset, 0)`: dictionary lookup defaulting to 0. -/
def lookup0 (m : Weights) (k : String) : ℚ := (m.lookup k).getD 0

/-- The active-share branch of `calculate_risk_metrics` in
`advanced/api_fastapi/main.py` (lines 400-432).  The guard
`if weights.benchmark_weights:` is falsy both for `None` and for an empty
dict, in which case `active_share` stays `None`; otherwise it is
`0.5 * sum(abs(w))` of the differences over
`set(list(pw.keys()) + list(bw.keys()))`. -/
def active_share (pw bw : Weights) : Option ℚ :=
  if bw = [] then none
  else
    some ((1 / 2) *
      (((pw.map Prod.fst ++ bw.map Prod.fst).dedup).map
        (fun k => |lookup0 pw k - lookup0 bw k|)).sum)

/-- Modelled from the spec: "Active share = 0.5·Σ|wᵢ − bᵢ| over the union of
asset keys present in either the portfolio or the benchmark, treating an
absent key on either side as weight 0". -/
def active_share_spec (pw bw : Weights) : ℚ :=
  (1 / 2) *
    ∑ k ∈ (pw.map Prod.fst ++ bw.map Prod.fst).toFinset,
      |lookup0 pw k - lookup0 bw k|

/-- The EWMA decay factor `alpha = 0.94` of `estimate_mu_sigma`. -/
def alphaEwma : ℚ := 94 / 100

/-- The normalized expected-return weights of `estimate_mu_sigma`:
`np.array([(1 - alpha) * alpha**i for i in range(m)][::-1])`, divided by its
sum. -/
def ewmaMuWeights (m : ℕ) : List ℚ :=
  let raw := ((List.range m).map (fun i => (1 - alphaEwma) * alphaEwma ^ i)).reverse
  raw.map (fun x => x / raw.sum)

/-- Componentwise vector addition (numpy broadcasting over columns). -/
def vecAdd (a b : List ℚ) : List ℚ := List.zipWith (· + ·) a b

/-- Scalar times vector. -/
def scale (c : ℚ) (v : List ℚ) : List ℚ := v.map (fun x => c * x)

/-- `(recent_returns * weights.reshape(-1, 1)).sum(axis=0)`: each row scaled
by its weight, rows summed componentwise into a length-`ncols` vector. -/
def weightedRowSum (w : List ℚ) (rows : List (List ℚ)) (ncols : ℕ) : List ℚ :=
  (List.zipWith scale w rows).foldr vecAdd (List.replicate ncols 0)

/-- The pandas `ewm(alpha=1 - 0.94)` observation weight of row `t`
(0 = oldest) among `m` rows at the final timestamp: `0.94 ^ (m - 1 - t)`
(`adjust=True`, so weights are unnormalized, newest = 1). -/
def ewmCovWeights (m : ℕ) : List ℚ :=
  (List.range m).map (fun t => alphaEwma ^ (m - 1 - t))

/-- Weighted mean `Σ uₜxₜ / Σ uₜ` used inside the pandas EWM covariance. -/
def ewmMean (u xs : List ℚ) : ℚ := (List.zipWith (· * ·) u xs).sum / u.sum

/-- One entry of the pandas EWM covariance matrix (`adjust=True`,
`bias=False`): `Σ uₜ(xₜ−x̄)(yₜ−ȳ) / (Σu − Σu²/Σu)`.  A zero bias-correction
denominator (e.g. a single observation) yields NaN in pandas, modelled as
`none`. -/
def ewmCovEntry (u xs ys : List ℚ) : Option ℚ :=
  let sw := u.sum
  let sw2 := (u.map (fun x => x ^ 2)).sum
  let denom := sw - sw2 / sw
  if denom = 0 then none
  else
    some ((List.zipWith (fun uv p => uv * (Prod.fst p - ewmMean u xs)
      * (Prod.snd p - ewmMean u ys)) u (xs.zip ys)).sum / denom)

/-- Column `j` of a row-major matrix. -/
def colOf (rows : List (List ℚ)) (j : ℕ) : List ℚ := rows.map (fun r => r.getD j 0)

/-- The spec's error taxonomy names `InputShapeError` for histories too
short for a covariance; the return type leaves room for it. -/
inductive ShapeError where
  | inputShape
deriving DecidableEq

/-- `estimate_mu_sigma` from `advanced/api_fastapi/main.py` (lines 129-152):
the lookback window silently shrinks to the available history
(`if len(returns_data) < lookback: lookback = len(returns_data)`), the EWMA
mean and the pandas EWM covariance at the final timestamp
(`.cov().iloc[-ncols:, :]`) are computed over the last `lookback` rows, and
the pair is returned.  The body contains no validation and no raise
whatsoever, so no code path produces `.error`. -/
def estimate_mu_sigma (returns_data : List (List ℚ)) (lookback : ℕ) :
    Except ShapeError (List ℚ × List (List (Option ℚ))) :=
  let lb := min lookback returns_data.length
  let recent := returns_data.drop (returns_data.length - lb)
  let m := recent.length
  let ncols := (returns_data.headD []).length
  let mu := weightedRowSum (ewmaMuWeights m) recent ncols
  let u := ewmCovWeights m
  let sigma := (List.range ncols).map (fun i => (List.range ncols).map
    (fun j => ewmCovEntry u (colOf recent i) (colOf recent j)))
  .ok (mu, sigma)

/-- `np.percentile(xs, 5)` with the default linear interpolation: sort
ascending, set the fractional position `h = (n − 1)·5/100`, and return
`s[⌊h⌋] + (h − ⌊h⌋)·(s[⌊h⌋ + 1] − s[⌊h⌋])` (`⌊h⌋ = (n − 1) / 20` as natural
division; when `⌊h⌋` is the last index the fractional part is 0 and the
out-of-range neighbour is irrelevant, so it defaults to `s[⌊h⌋]`). -/
def percentile5 (xs : List ℚ) : ℚ :=
  let s := List.insertionSort (· ≤ ·) xs
  let n := xs.length
  let lo := (n - 1) / 20
  let a := s.getD lo 0
  let b := s.getD (lo + 1) a
  a + (((n : ℚ) - 1) * (5 / 100) - (lo : ℚ)) * (b - a)

/-- `portfolio_scenarios = scenarios.T @ weights` from
`calculate_portfolio_metrics` in `scripts/bench_compare_mv_cvar.py`
(lines 101-136). -/
def portfolio_scenarios (scenarios : List (List ℚ)) (w : List ℚ) : List ℚ :=
  scenarios.transpose.map (fun col => dot col w)

/-- `var_95 = np.percentile(portfolio_scenarios, 5)`. -/
def var_95 (ps : List ℚ) : ℚ := percentile5 ps

/-- `cvar_95 = np.mean(portfolio_scenarios[portfolio_scenarios <= var_95])`:
the mean of the scenario returns not exceeding the VaR threshold. -/
def cvar_95 (ps : List ℚ) : ℚ :=
  ((ps.filter (fun x => x ≤ var_95 ps)).sum)
    / (((ps.filter (fun x => x ≤ var_95 ps)).length : ℚ))

/-- The cvxpy objective of `mean_variance_optimize`:
`cp.Maximize(mu.T @ w - 0.5 * risk_aversion * cp.quad_form(w, sigma))`. -/
def mvUtility (mu : List ℚ) (sigma : List (List ℚ)) (lam : ℚ) (w : List ℚ) : ℚ :=
  dot mu w - (1/2) * lam * quadForm w sigma

/-- The constraint set of `mean_variance_optimize` with no extra overrides:
an `n`-dimensional variable with `cp.sum(w) == 1` (fully invested) and
`w >= 0` (long-only). -/
def mvFeasible (n : ℕ) (w : List ℚ) : Prop :=
  w.length = n ∧ w.sum = 1 ∧ ∀ x ∈ w, 0 ≤ x

/-- `w` is an exact optimum of the mean-variance program that
`mean_variance_optimize` hands to the external solver: feasible, and of
maximal `mvUtility` among all feasible vectors. -/
def isMVOptimal (n : ℕ) (mu : List ℚ) (sigma : List (List ℚ)) (lam : ℚ)
    (w : List ℚ) : Prop :=
  mvFeasible n w ∧
    ∀ v, mvFeasible n v → mvUtility mu sigma lam v ≤ mvUtility mu sigma lam w

/-- The fixed expected-return vector `μ = [0.05, 0.10, 0.15]` of claim C7. -/
def mu7 : List ℚ := [5/100, 10/100, 15/100]

/-- A diagonal covariance matrix with equal variances `s2`. -/
def sigma7 (s2 : ℚ) : List (List ℚ) := [[s2, 0, 0], [0, s2, 0], [0, 0, s2]]

/-- The list comprehension
`[request.expected_returns[asset] for asset in request.assets]` of the
`/optimize` handler: `none` models the `KeyError` a missing asset raises. -/
def lookupAll (er : Weights) : List String → Option (List ℚ)
  | [] => some []
  | a :: rest =>
    match er.lookup a with
    | none => none
    | some v =>
      match lookupAll er rest with
      | none => none
      | some vs => some (v :: vs)

/-- Observable behaviour of the MLflow sink during one
`log_optimization_run` call. -/
inductive LogOutcome where
  /-- everything succeeded; a run id is returned. -/
  | ok
  /-- `MlflowClient()` (or `mlflow.set_tracking_uri`) raised inside
  `MLflowLogger.__init__` — these two statements sit *outside* the
  `try` of `__init__` (`advanced/utils/mlflow_logger.py` lines 29-33), so
  the exception escapes `get_logger` and `log_optimization_run`. -/
  | initRaises
  /-- any other failure: experiment setup or run logging failed inside a
  `try`, a warning is printed and `None` is returned. -/
  | swallowedFailure
deriving DecidableEq

/-- `log_optimization_run` from `advanced/utils/mlflow_logger.py`
(lines 186-203 via the `MLflowLogger` methods): every failure path except
client construction/tracking-URI during `__init__` is swallowed and yields
`None`. -/
def log_optimization_run (outcome : LogOutcome) : Except PyError (Option String) :=
  match outcome with
  | .ok => .ok (some "run_id")
  | .initRaises => .error .mlflowError
  | .swallowedFailure => .ok none

/-- `sigma.shape == (n, n)` for `sigma = np.array(covariance_matrix)`:
`n` rows, each of length `n` (a ragged list gets an object-dtype 1-D shape
and fails the comparison too, which this check subsumes). -/
def shapeOK (sigma : List (List ℚ)) (n : ℕ) : Bool :=
  sigma.length == n && sigma.all (fun row => row.length == n)

def lengthMismatchMsg : String := "Expected returns length mismatch"

def covMismatchMsg : String := "Covariance matrix dimension mismatch"

/-- `str(e)` for the modelled exceptions, as used in
`HTTPException(500, f"Optimization failed: {str(e)}")`. -/
def pyErrStr : PyError → String
  | .keyError => "KeyError"
  | .httpError _ msg => msg
  | .valueError => "Quadratic form matrices must be symmetric/Hermitian"
  | .mlflowError => "MLflow client initialization raised"

/-- The body of an `OptimizationRequest` (`advanced/api_fastapi/main.py`
lines 57-68). -/
structure OptimizeRequest where
  assets : List String
  expected_returns : Weights
  covariance_matrix : List (List ℚ)
  risk_aversion : ℚ
deriving DecidableEq

/-- The `/optimize` response: the weight map plus its metrics.  The source
reports `volatility = √(wᵀΣw)` and `sharpe = ret/volatility`; both are
determined by `expected_return` and `variance = wᵀΣw`, and the model keeps
the (rational) variance since the square root is irrational. -/
structure OptimizeResponse where
  portfolio : Weights
  expected_return : ℚ
  variance : ℚ
  hhi : ℚ
deriving DecidableEq

/-- The `try:` body of the `/optimize` handler `optimize_portfolio`
(`advanced/api_fastapi/main.py` lines 315-364): build μ by indexing
`expected_returns` over `assets` (KeyError on a missing asset), raise
HTTP 400 on a μ-length or Σ-shape mismatch, run
`mean_variance_optimize`, compute the response metrics, call the MLflow
sink, and return the response.  Any escaping exception is the caller's to
handle. -/
def optimize_body (req : OptimizeRequest) (quad_form_raises : Bool)
    (solve : SolverOutcome) (logOut : LogOutcome) :
    Except PyError OptimizeResponse :=
  match lookupAll req.expected_returns req.assets with
  | none => .error .keyError
  | some mu =>
    if mu.length ≠ req.assets.length then
      .error (.httpError 400 lengthMismatchMsg)
    else if ¬ shapeOK req.covariance_matrix req.assets.length then
      .error (.httpError 400 covMismatchMsg)
    else
      match mean_variance_optimize mu.length quad_form_raises solve with
      | .error e => .error e
      | .ok ow =>
        match log_optimization_run logOut with
        | .error e => .error e
        | .ok _ =>
          .ok ⟨req.assets.zip ow, dot ow mu,
            quadForm ow req.covariance_matrix, compute_hhi (req.assets.zip ow)⟩

/-- The `/optimize` handler with its blanket
`except Exception: raise HTTPException(500, ...)`: every exception escaping
the body — the handler's own 400s included — resurfaces as HTTP 500. -/
def optimize_portfolio (req : OptimizeRequest) (quad_form_raises : Bool)
    (solve : SolverOutcome) (logOut : LogOutcome) :
    Except (ℕ × String) OptimizeResponse :=
  match optimize_body req quad_form_raises solve logOut with
  | .ok r => .ok r
  | .error e => .error (500, "Optimization failed: " ++ pyErrStr e)

/-- Whether a body outcome is precisely the 400 "Expected returns length
mismatch" branch. -/
def isLengthMismatch400 : Except PyError OptimizeResponse → Bool
  | .error (.httpError 400 msg) => msg == lengthMismatchMsg
  | _ => false

/-- Whether a handler outcome is a success or carries status code 500. -/
def errorsAre500 : Except (ℕ × String) OptimizeResponse → Bool
  | .ok _ => true
  | .error e => e.1 == 500

/-! ### C1: minimum-deviation repair fallback -/

/-- C1 (counterexample): the repaired weight map returned by
`concentration_repair` carries no status field, so a caller cannot
distinguish "solved" from "fell back": a genuine `cp.OPTIMAL` solve whose
solution equals the input (a portfolio already satisfying every cap)
produces exactly the same return value as the all-backends-exhausted
fallback.  This refutes the part of the claim stating that the fallback
result is tagged with status `FallbackApplied`. -/
theorem concentration_repair_no_status_tag :
    concentration_repair [("A", 1/2), ("B", 1/2)] [.optimal [1/2, 1/2]]
      = concentration_repair [("A", 1/2), ("B", 1/2)] [.failed, .failed, .failed] := by
  simp [concentration_repair]

/-- C1 (amended): if every backend in the cascade is exhausted without an
optimal result, `concentration_repair` returns the unmodified input weight
map (and, being a total function mirroring the source's catch-all
`except` clauses, raises nothing) — but with no status tag attached. -/
theorem concentration_repair_all_failed (weights : Weights)
    (attempts : List SolverOutcome) (h : ∀ a ∈ attempts, a = .failed) :
    concentration_repair weights attempts = weights := by
  induction attempts with
  | nil => rfl
  | cons a rest ih =>
    have ha := h a (List.mem_cons_self a rest)
    subst ha
    exact ih (fun x hx => h x (List.mem_cons_of_mem _ hx))

/-- C1 (witness): the amended theorem at a concrete exhausted cascade. -/
theorem concentration_repair_all_failed_witness :
    concentration_repair [("A", 9/10), ("B", 1/10)] [.failed, .failed, .failed]
      = [("A", 9/10), ("B", 1/10)] :=
  concentration_repair_all_failed _ _ (by decide)

/-! ### C3: moment estimation on short histories -/

/-- With a single observation the normalized EWMA mean weight vector is
`[1]`. -/
lemma ewmaMuWeights_one : ewmaMuWeights 1 = [1] := by
  norm_num [ewmaMuWeights, alphaEwma, List.range_succ, List.range_zero]

/-- With a single observation the EWM covariance bias-correction
denominator `Σu − Σu²/Σu = 1 − 1/1` vanishes, so every covariance entry is
NaN (`none`), whatever the data. -/
lemma ewmCovEntry_single (xs ys : List ℚ) :
    ewmCovEntry (ewmCovWeights 1) xs ys = none := by
  norm_num [ewmCovEntry, ewmCovWeights, List.range_succ, List.range_zero]

lemma scale_one (v : List ℚ) : scale 1 v = v := by
  simp [scale]

lemma vecAdd_replicate_zero (l : List ℚ) :
    vecAdd l (List.replicate l.length 0) = l := by
  induction l with
  | nil => rfl
  | cons a t ih => simpa [vecAdd, List.replicate_succ] using ih

/-- C3 (counterexample): a history with a single observation (fewer than 2)
is *not* rejected: `estimate_mu_sigma` returns a moment estimate — μ equal
to the lone observation and an all-NaN covariance matrix — instead of
failing with `InputShapeError`. -/
theorem estimate_mu_sigma_short_history_cex :
    estimate_mu_sigma [[1/10, 1/5]] 252
      = .ok ([1/10, 1/5], [[none, none], [none, none]]) := by
  simp [estimate_mu_sigma, ewmaMuWeights_one, ewmCovEntry_single,
    weightedRowSum, scale_one, vecAdd]

/-- C3 (amended): the lookback window silently shrinks to the available
history and no history is ever rejected; for *every* single-observation
history the estimator returns `.ok` with μ equal to that observation and an
undefined (all-NaN) covariance matrix, rather than failing. -/
theorem estimate_mu_sigma_single_row (row : List ℚ) (lb : ℕ) (h : 1 ≤ lb) :
    estimate_mu_sigma [row] lb
      = .ok (row, List.replicate row.length (List.replicate row.length none)) := by
  simp [estimate_mu_sigma, min_eq_right h, ewmaMuWeights_one, ewmCovEntry_single,
    weightedRowSum, scale_one, vecAdd_replicate_zero, List.map_const']

/-- C3 (witness): the amended theorem at a concrete one-row history and
lookback 5. -/
theorem estimate_mu_sigma_single_row_witness :
    estimate_mu_sigma [[2, 3]] 5 = .ok ([2, 3], [[none, none], [none, none]]) := by
  have h := estimate_mu_sigma_single_row [2, 3] 5 (by norm_num)
  simpa [List.replicate_succ] using h

/-! ### C8: equal-weight fallback for mean-variance and CVaR -/

/-- C8: when the (single-backend) solver cascade of `mean_variance_optimize`
or `cvar_optimize` is exhausted without an optimal result, the returned
vector is exactly the equal-weight portfolio `np.ones(n) / n`. -/
theorem exhausted_solver_fallback_is_equal_weights (n : ℕ) :
    mean_variance_optimize n false .failed = .ok (List.replicate n (1 / (n : ℚ)))
      ∧ cvar_optimize n .failed = List.replicate n (1 / (n : ℚ)) :=
  ⟨rfl, rfl⟩

/-! ### C4: active share with an empty benchmark -/

/-- C4 (counterexample): with portfolio `{"A": 1.0}` and an *empty*
benchmark dict, `calculate_risk_metrics` takes the falsy branch of
`if weights.benchmark_weights:` and reports `active_share = None`; the
claim's value `0.5 * |1.0| = 0.5` is not returned. -/
theorem active_share_empty_benchmark_cex :
    active_share [("A", 1)] [] = none ∧ some ((1 : ℚ)/2 * |(1 : ℚ)|) ≠ none := by
  exact ⟨rfl, by simp⟩

/-- C4 (amended): the metric is omitted (`None`) when the benchmark dict is
empty or absent; for every *non-empty* benchmark it equals the spec formula
`0.5·Σ|wᵢ − bᵢ|` over the union of asset keys, absent keys defaulting to 0. -/
theorem active_share_nonempty_matches_spec (pw bw : Weights) (h : bw ≠ []) :
    active_share pw bw = some (active_share_spec pw bw) := by
  unfold active_share active_share_spec
  rw [if_neg h]
  congr 1

/-- C4 (witness): the amended theorem at a concrete non-empty benchmark,
evaluated: active share of `{"A": 3/4}` against `{"A": 1/4}` is
`0.5·|3/4 − 1/4| = 1/4`. -/
theorem active_share_nonempty_witness :
    active_share [("A", 3/4)] [("A", 1/4)] = some (1/4) := by
  rw [active_share_nonempty_matches_spec [("A", 3/4)] [("A", 1/4)] (by simp)]
  simp [active_share_spec, lookup0]
  rw [abs_of_nonneg (show (0 : ℚ) ≤ 3/4 - 4⁻¹ by norm_num)]
  norm_num

/-! ### C6: CVaR never exceeds VaR -/

/-- The interpolated 5th percentile of a non-empty list is at least its
smallest element, so the `≤ VaR` tail is never empty. -/
lemma exists_le_percentile5 (xs : List ℚ) (h : xs ≠ []) :
    ∃ x ∈ xs, x ≤ percentile5 xs := by
  have hperm := List.perm_insertionSort (· ≤ ·) xs
  have hs := List.sorted_insertionSort (· ≤ ·) xs
  set s := List.insertionSort (· ≤ ·) xs with hsdef
  have hlen : s.length = xs.length := List.length_insertionSort (· ≤ ·) xs
  have hn : 0 < xs.length := List.length_pos.mpr h
  have hns : 0 < s.length := hlen ▸ hn
  set n := xs.length with hndef
  set lo := (n - 1) / 20 with hlodef
  have hlo : lo < s.length := by
    rw [hlen]
    exact lt_of_le_of_lt (Nat.div_le_self _ _) (Nat.sub_lt hn one_pos)
  set a := s.getD lo 0 with hadef
  set b := s.getD (lo + 1) a with hbdef
  have ha : a = s.get ⟨lo, hlo⟩ := by
    rw [hadef]
    simp [List.getD_eq_getElem?_getD, List.getElem?_eq_getElem hlo]
  have hhead_le_a : s.get ⟨0, hns⟩ ≤ s.get ⟨lo, hlo⟩ :=
    hs.rel_get_of_le (Fin.mk_le_mk.mpr (Nat.zero_le _))
  have hab : a ≤ b := by
    by_cases hlt : lo + 1 < s.length
    · have hb : b = s.get ⟨lo + 1, hlt⟩ := by
        rw [hbdef]
        simp [List.getD_eq_getElem?_getD, List.getElem?_eq_getElem hlt]
      rw [hb, ha]
      exact hs.rel_get_of_le (Fin.mk_le_mk.mpr (Nat.le_succ _))
    · have hb : b = a := by
        rw [hbdef]
        simp [List.getD_eq_getElem?_getD, List.getElem?_eq_none (Nat.le_of_not_lt hlt)]
      rw [hb]
  have hfrac : (0 : ℚ) ≤ ((n : ℚ) - 1) * (5 / 100) - (lo : ℚ) := by
    have h20 : (lo : ℚ) * 20 ≤ ((n : ℚ) - 1) := by
      have hnat : lo * 20 ≤ n - 1 := Nat.div_mul_le_self (n - 1) 20
      have hcast : ((n - 1 : ℕ) : ℚ) = (n : ℚ) - 1 := by
        push_cast [Nat.cast_sub hn]
        ring
      calc (lo : ℚ) * 20 = ((lo * 20 : ℕ) : ℚ) := by push_cast; ring
        _ ≤ ((n - 1 : ℕ) : ℚ) := by exact_mod_cast hnat
        _ = (n : ℚ) - 1 := hcast
    linarith
  refine ⟨s.get ⟨0, hns⟩, hperm.subset (List.get_mem s 0 hns), ?_⟩
  have hunfold : percentile5 xs
      = a + (((n : ℚ) - 1) * (5 / 100) - (lo : ℚ)) * (b - a) := rfl
  rw [hunfold]
  have hmul : (0 : ℚ) ≤ (((n : ℚ) - 1) * (5 / 100) - (lo : ℚ)) * (b - a) :=
    mul_nonneg hfrac (by linarith)
  linarith [ha, hhead_le_a]

/-- The mean of the `≤ VaR₉₅` tail of any non-empty return list is at most
`VaR₉₅`. -/
lemma cvar95_le_var95_of_ne_nil (ps : List ℚ) (h : ps ≠ []) :
    cvar_95 ps ≤ var_95 ps := by
  obtain ⟨x, hx, hxv⟩ := exists_le_percentile5 ps h
  set v := var_95 ps with hv
  have hxv2 : x ≤ v := hxv
  have hmem : x ∈ ps.filter (fun y => y ≤ v) :=
    List.mem_filter.mpr ⟨hx, by simpa using hxv2⟩
  set t := ps.filter (fun y => y ≤ v) with ht
  have hlen : 0 < t.length := List.length_pos.mpr (List.ne_nil_of_mem hmem)
  have hall : ∀ y ∈ t, y ≤ v := by
    intro y hy
    have := (List.mem_filter.mp hy).2
    simpa using this
  have hsum : t.sum ≤ t.length • v := List.sum_le_card_nsmul t v hall
  rw [nsmul_eq_mul] at hsum
  have hlenq : (0 : ℚ) < (t.length : ℚ) := by exact_mod_cast hlen
  unfold cvar_95
  rw [← hv, ← ht]
  rw [div_le_iff₀ hlenq]
  linarith

/-- C6: for every scenario matrix and weight vector yielding at least one
scenario return, the computed `cvar_95` (mean of portfolio scenario returns
at or below the 5th-percentile VaR) never exceeds the computed `var_95`. -/
theorem cvar95_le_var95 (scenarios : List (List ℚ)) (w : List ℚ)
    (h : portfolio_scenarios scenarios w ≠ []) :
    cvar_95 (portfolio_scenarios scenarios w)
      ≤ var_95 (portfolio_scenarios scenarios w) :=
  cvar95_le_var95_of_ne_nil _ h

/-- C6 (witness): the theorem at a concrete 2-asset, 2-scenario matrix. -/
theorem cvar95_le_var95_witness :
    cvar_95 (portfolio_scenarios [[1, 2], [3, 4]] [1/2, 1/2])
      ≤ var_95 (portfolio_scenarios [[1, 2], [3, 4]] [1/2, 1/2]) :=
  cvar95_le_var95 [[1, 2], [3, 4]] [1/2, 1/2] (by decide)

/-! ### C7: higher risk aversion never increases expected return -/

lemma dot_comm (a b : List ℚ) : dot a b = dot b a := by
  unfold dot
  rw [List.zipWith_comm_of_comm (· * ·) mul_comm]

/-- C7: for `μ = [0.05, 0.10, 0.15]` and any equal-variance diagonal Σ, the
expected portfolio return `np.dot(w, mu)` of the mean-variance optimum at
`risk_aversion = 10` never exceeds the one at `risk_aversion = 1`.  The
external solve is taken to be exact: each hypothesis states that the
returned vector optimizes the program `mean_variance_optimize` formulates. -/
theorem mv_return_antitone (s2 : ℚ) (w1 w10 : List ℚ)
    (h1 : isMVOptimal 3 mu7 (sigma7 s2) 1 w1)
    (h10 : isMVOptimal 3 mu7 (sigma7 s2) 10 w10) :
    dot w10 mu7 ≤ dot w1 mu7 := by
  have ha := h1.2 w10 h10.1
  have hb := h10.2 w1 h1.1
  unfold mvUtility at ha hb
  rw [dot_comm w10 mu7, dot_comm w1 mu7]
  linarith

/-- At `s2 = 3/10`, `λ = 1`, the optimum is `(1/6, 1/3, 1/2)`: the program
is `max μᵀv − (3/20)‖v‖²`, and `U(w) − U(v) = (3/20)‖v − w‖² ≥ 0` because
`w = μ/(λ·s2)` already lies on the simplex. -/
lemma mvopt_lam1 : isMVOptimal 3 mu7 (sigma7 (3/10)) 1 [1/6, 1/3, 1/2] := by
  constructor
  · refine ⟨rfl, by norm_num, ?_⟩
    intro x hx
    simp at hx
    rcases hx with rfl | rfl | rfl <;> norm_num
  · rintro v ⟨hlen, hsum, hnn⟩
    obtain ⟨p, q, r, rfl⟩ := List.length_eq_three.mp hlen
    have hsum3 : p + q + r = 1 := by
      have h := hsum
      simp [List.sum_cons] at h
      linarith
    simp only [mvUtility, dot, quadForm, mu7, sigma7, List.zipWith, List.map,
      List.sum_cons, List.sum_nil]
    nlinarith [sq_nonneg (p - 1/6), sq_nonneg (q - 1/3), sq_nonneg (r - 1/2)]

/-- At `s2 = 3/10`, `λ = 10`, the optimum is `(19/60, 20/60, 21/60)`:
`U(w) − U(v) = (3/2)‖v − w‖² + (9/10)(Σv − 1)`, nonnegative on the
simplex. -/
lemma mvopt_lam10 : isMVOptimal 3 mu7 (sigma7 (3/10)) 10 [19/60, 20/60, 21/60] := by
  constructor
  · refine ⟨rfl, by norm_num, ?_⟩
    intro x hx
    simp at hx
    rcases hx with rfl | rfl | rfl <;> norm_num
  · rintro v ⟨hlen, hsum, hnn⟩
    obtain ⟨p, q, r, rfl⟩ := List.length_eq_three.mp hlen
    have hsum3 : p + q + r = 1 := by
      have h := hsum
      simp [List.sum_cons] at h
      linarith
    simp only [mvUtility, dot, quadForm, mu7, sigma7, List.zipWith, List.map,
      List.sum_cons, List.sum_nil]
    nlinarith [sq_nonneg (p - 19/60), sq_nonneg (q - 20/60), sq_nonneg (r - 21/60),
      hsum3]

/-- C7 (witness): the theorem at `s2 = 3/10` with the two exact optima;
the returns are `61/600` at `λ = 10` and `7/60` at `λ = 1`. -/
theorem mv_return_antitone_witness :
    dot [19/60, 20/60, 21/60] mu7 ≤ dot [1/6, 1/3, 1/2] mu7 :=
  mv_return_antitone (3/10) _ _ mvopt_lam1 mvopt_lam10

/-! ### C5: HHI bounds -/

/-- Expansion of the centred sum of squares over a list. -/
lemma sum_sq_sub_const (l : List ℚ) (c : ℚ) :
    (l.map (fun x => (x - c) ^ 2)).sum
      = (l.map (fun x => x ^ 2)).sum - 2 * c * l.sum + l.length * c ^ 2 := by
  induction l with
  | nil => simp
  | cons a t ih =>
    simp only [List.map_cons, List.sum_cons, ih, List.length_cons]
    push_cast
    ring

/-- C5 (counterexample): `compute_hhi` is a bare sum of squares of whatever
values the dict holds; for the weight map `{"A": 0, "B": 0}` (N = 2) it
returns 0, which is below the claimed lower bound 1/N = 1/2 even though all
weights are equal.  The claimed bounds fail for general weight maps. -/
theorem compute_hhi_bounds_cex :
    compute_hhi [("A", 0), ("B", 0)] = 0 ∧ ¬ ((1 : ℚ)/2 ≤ 0) := by
  constructor
  · simp [compute_hhi]
  · norm_num

/-- C5 (amended): for every weight map whose values are nonnegative and sum
to 1 (a genuine long-only, fully-invested portfolio over N ≥ 1 assets),
`compute_hhi` lies in `[1/N, 1]`, and it equals `1/N` exactly when all
weights are equal (each being `1/N`). -/
theorem compute_hhi_bounds (ws : Weights) (hpos : 0 < ws.length)
    (hsum : (ws.map Prod.snd).sum = 1)
    (hnn : ∀ x ∈ ws.map Prod.snd, 0 ≤ x) :
    1 / (ws.length : ℚ) ≤ compute_hhi ws ∧ compute_hhi ws ≤ 1 ∧
      (compute_hhi ws = 1 / (ws.length : ℚ) ↔
        ∀ x ∈ ws.map Prod.snd, x = 1 / (ws.length : ℚ)) := by
  set l := ws.map Prod.snd with hl
  have hlen : l.length = ws.length := List.length_map _ _
  have hN : (0 : ℚ) < (ws.length : ℚ) := by exact_mod_cast hpos
  have hN0 : (ws.length : ℚ) ≠ 0 := ne_of_gt hN
  set c : ℚ := 1 / (ws.length : ℚ) with hc
  have h2 : compute_hhi ws = (l.map (fun x => x ^ 2)).sum := by
    unfold compute_hhi
    rw [← hl]
  have hkey : (l.map (fun x => (x - c) ^ 2)).sum
      = compute_hhi ws - c := by
    rw [sum_sq_sub_const, hsum, hlen, h2]
    have h3 : (ws.length : ℚ) * c ^ 2 = c := by
      rw [hc]; field_simp; ring
    rw [h3]; ring
  have hsq_nonneg : (0 : ℚ) ≤ (l.map (fun x => (x - c) ^ 2)).sum := by
    apply List.sum_nonneg
    intro x hx
    obtain ⟨y, _, rfl⟩ := List.mem_map.mp hx
    positivity
  refine ⟨by linarith [hkey ▸ hsq_nonneg], ?_, ?_⟩
  · -- upper bound: each weight is ≤ 1, so x² ≤ x and Σx² ≤ Σx = 1
    have hle : ∀ x ∈ l, x ^ 2 ≤ x := by
      intro x hx
      have h0 : 0 ≤ x := hnn x hx
      have h1 : x ≤ 1 := hsum ▸ List.single_le_sum hnn x hx
      nlinarith
    calc compute_hhi ws = (l.map (fun x => x ^ 2)).sum := h2
      _ ≤ (l.map (fun x => x)).sum := List.sum_le_sum hle
      _ = l.sum := by simp
      _ = 1 := hsum
  · constructor
    · intro h
      have hzero : (l.map (fun x => (x - c) ^ 2)).sum = 0 := by
        rw [hkey, h]; ring
      intro x hx
      have : (x - c) ^ 2 = 0 := by
        refine List.all_zero_of_le_zero_le_of_sum_eq_zero ?_ hzero
          (List.mem_map_of_mem (fun x => (x - c) ^ 2) hx)
        intro y hy
        obtain ⟨z, _, rfl⟩ := List.mem_map.mp hy
        positivity
      have h4 := sq_eq_zero_iff.mp this
      linarith [sub_eq_zero.mp h4]
    · intro h
      have : l.map (fun x => (x - c) ^ 2) = l.map (fun _ => (0 : ℚ)) := by
        apply List.map_congr_left
        intro x hx
        rw [h x hx]; ring
      have hzero : (l.map (fun x => (x - c) ^ 2)).sum = 0 := by
        rw [this]; simp
      rw [hkey] at hzero
      linarith

/-- C5 (witness): the amended theorem at the equal-weight two-asset map,
where HHI = 1/2 = 1/N exactly. -/
theorem compute_hhi_bounds_witness :
    1 / (([("A", (1:ℚ)/2), ("B", 1/2)].length : ℚ))
        ≤ compute_hhi [("A", 1/2), ("B", 1/2)] ∧
      compute_hhi [("A", 1/2), ("B", 1/2)] ≤ 1 ∧
      (compute_hhi [("A", 1/2), ("B", 1/2)]
          = 1 / (([("A", (1:ℚ)/2), ("B", 1/2)].length : ℚ)) ↔
        ∀ x ∈ ([("A", (1:ℚ)/2), ("B", 1/2)].map Prod.snd),
          x = 1 / (([("A", (1:ℚ)/2), ("B", 1/2)].length : ℚ))) :=
  compute_hhi_bounds [("A", 1/2), ("B", 1/2)] (by norm_num) (by norm_num)
    (by norm_num)

/-! ### C10: the length-mismatch 400 branch is unreachable; all surfaced
errors are 500 -/

/-- A successful `lookupAll` returns one value per requested asset. -/
lemma lookupAll_length (er : Weights) :
    ∀ (l : List String) (r : List ℚ), lookupAll er l = some r → r.length = l.length := by
  intro l
  induction l with
  | nil =>
    intro r hr
    simp [lookupAll] at hr
    simp [← hr]
  | cons a rest ih =>
    intro r hr
    simp only [lookupAll] at hr
    cases hv : er.lookup a with
    | none => rw [hv] at hr; simp at hr
    | some v =>
      rw [hv] at hr
      cases hrest : lookupAll er rest with
      | none => rw [hrest] at hr; simp at hr
      | some vs =>
        rw [hrest] at hr
        simp at hr
        rw [← hr]
        simp [ih vs hrest]

/-- `mean_variance_optimize` can only raise the quad-form construction
error. -/
lemma mean_variance_optimize_error_eq (n : ℕ) (qf : Bool) (s : SolverOutcome)
    (e : PyError) (h : mean_variance_optimize n qf s = .error e) :
    e = .valueError := by
  cases qf
  · cases s <;> simp [mean_variance_optimize] at h
  · simp [mean_variance_optimize] at h
    subst h
    rfl

/-- The logging sink can only raise the client-initialization error. -/
lemma log_optimization_run_error_eq (lo : LogOutcome) (e : PyError)
    (h : log_optimization_run lo = .error e) : e = .mlflowError := by
  cases lo <;> simp [log_optimization_run] at h
  subst h
  rfl

/-- C10: for every request and every behaviour of the external solver and
logging sink, (a) the `/optimize` body never takes the
`HTTPException(400, "Expected returns length mismatch")` branch, because μ
is built by indexing `expected_returns` over `assets` and hence always has
exactly one entry per asset (a missing asset raises KeyError before the
check); and (b) every error the handler surfaces to the caller carries
HTTP status 500 — the blanket `except Exception` converts even the
handler's own 400s. -/
theorem optimize_mismatch_unreachable (req : OptimizeRequest)
    (quad_form_raises : Bool) (solve : SolverOutcome) (logOut : LogOutcome) :
    isLengthMismatch400 (optimize_body req quad_form_raises solve logOut) = false
      ∧ errorsAre500 (optimize_portfolio req quad_form_raises solve logOut) = true := by
  constructor
  · unfold optimize_body
    cases hm : lookupAll req.expected_returns req.assets with
    | none => simp [isLengthMismatch400]
    | some mu =>
      have hlen := lookupAll_length req.expected_returns req.assets mu hm
      simp only [hlen, ne_eq, not_true_eq_false, if_false]
      by_cases hshape : shapeOK req.covariance_matrix req.assets.length = true
      · simp only [hshape, not_true_eq_false, if_false]
        cases hmv : mean_variance_optimize req.assets.length quad_form_raises solve with
        | error e =>
          have he := mean_variance_optimize_error_eq _ _ _ _ hmv
          subst he
          simp [isLengthMismatch400]
        | ok ow =>
          cases hlog : log_optimization_run logOut with
          | error e =>
            have he := log_optimization_run_error_eq _ _ hlog
            subst he
            simp [isLengthMismatch400]
          | ok x => simp [isLengthMismatch400]
      · simp only [hshape]
        simp [isLengthMismatch400, covMismatchMsg, lengthMismatchMsg]
  · unfold optimize_portfolio
    cases optimize_body req quad_form_raises solve logOut with
    | ok r => simp [errorsAre500]
    | error e => simp [errorsAre500]

/-- C10 (witness): the theorem applied to a concrete request. -/
theorem optimize_mismatch_unreachable_witness :
    errorsAre500 (optimize_portfolio ⟨["A"], [("A", 1/10)], [[1]], 3⟩ false
      (.optimal [1]) .ok) = true :=
  (optimize_mismatch_unreachable ⟨["A"], [("A", 1/10)], [[1]], 3⟩ false
    (.optimal [1]) .ok).2

/-! ### C2: covariance symmetry/PSD is never validated -/

/-- C2 (counterexample): the symmetric but indefinite covariance matrix
`[[1, 0], [0, -1]]` (the second conjunct exhibits `wᵀΣw = -1 < 0` at
`w = (0,1)`) passes the `/optimize` validation — only the two dimension
checks exist — and is formulated and handed to the solver; when the solve
then fails, the call *succeeds* with the equal-weight fallback portfolio
instead of failing fast with any `InputShapeError`-like rejection. -/
theorem optimize_nonpsd_no_fail_fast_cex :
    optimize_portfolio ⟨["A", "B"], [("A", 1/10), ("B", 1/5)], [[1, 0], [0, -1]], 3⟩
        false .failed .ok
      = .ok ⟨[("A", 1/2), ("B", 1/2)], 3/20, 0, 1/2⟩
      ∧ quadForm [0, 1] [[1, 0], [0, -1]] < 0 := by
  constructor
  · simp [optimize_portfolio, optimize_body, lookupAll, List.lookup, shapeOK,
      mean_variance_optimize, equal_weights, log_optimization_run, dot, quadForm,
      compute_hhi, List.replicate_succ]
    norm_num
  · simp [quadForm, dot]

/-- C2 (amended): the `/optimize` handler validates only dimensions.  For
*every* request whose μ lookups succeed and whose Σ has the right shape —
with no symmetry or positive-semi-definiteness requirement whatsoever — the
covariance matrix reaches the solver and the solver's weights are returned
to the caller. -/
theorem optimize_no_psd_validation (req : OptimizeRequest) (mu v : List ℚ)
    (hmu : lookupAll req.expected_returns req.assets = some mu)
    (hshape : shapeOK req.covariance_matrix req.assets.length = true) :
    optimize_portfolio req false (.optimal v) .ok
      = .ok ⟨req.assets.zip v, dot v mu, quadForm v req.covariance_matrix,
          compute_hhi (req.assets.zip v)⟩ := by
  unfold optimize_portfolio optimize_body
  rw [hmu]
  have hlen := lookupAll_length req.expected_returns req.assets mu hmu
  simp [hlen, hshape, mean_variance_optimize, log_optimization_run]

/-- C2 (witness): the amended theorem at the indefinite matrix
`[[1, 0], [0, -1]]` — the invalid Σ flows through to the reported variance
`wᵀΣw = 1` of the solver's solution `w = (1, 0)`. -/
theorem optimize_no_psd_validation_witness :
    optimize_portfolio ⟨["A", "B"], [("A", 1/10), ("B", 1/5)], [[1, 0], [0, -1]], 3⟩
        false (.optimal [1, 0]) .ok
      = .ok ⟨[("A", 1), ("B", 0)], 1/10, 1, 1⟩ := by
  have h := optimize_no_psd_validation
    ⟨["A", "B"], [("A", 1/10), ("B", 1/5)], [[1, 0], [0, -1]], 3⟩ [1/10, 1/5] [1, 0]
    (by simp [lookupAll, List.lookup]) (by simp [shapeOK])
  rw [h]
  simp [dot, quadForm, compute_hhi]

/-! ### C9: a logging-sink initialization failure aborts the call -/

/-- C9: at a concrete valid request with a successful solve, (a) when the
MLflow client construction raises during logger initialization — the one
failure path of the sink that sits outside any `try` — the whole
`/optimize` call aborts with HTTP 500 and no result is returned, although
the optimization itself succeeded; (b) every *swallowed* sink failure
leaves the response exactly identical to the all-success run, as the claim
demands. -/
theorem mlflow_init_failure_aborts :
    (optimize_portfolio ⟨["A", "B"], [("A", 1/10), ("B", 1/5)], [[1/100, 0], [0, 1/25]], 3⟩
        false (.optimal [3/5, 2/5]) .initRaises
      = .error (500, "Optimization failed: MLflow client initialization raised"))
    ∧ (optimize_portfolio ⟨["A", "B"], [("A", 1/10), ("B", 1/5)], [[1/100, 0], [0, 1/25]], 3⟩
        false (.optimal [3/5, 2/5]) .swallowedFailure
      = optimize_portfolio ⟨["A", "B"], [("A", 1/10), ("B", 1/5)], [[1/100, 0], [0, 1/25]], 3⟩
        false (.optimal [3/5, 2/5]) .ok) := by
  constructor
  · simp [optimize_portfolio, optimize_body, lookupAll, List.lookup, shapeOK,
      mean_variance_optimize, log_optimization_run, pyErrStr]
  · simp [optimize_portfolio, optimize_body, lookupAll, List.lookup, shapeOK,
      mean_variance_optimize, log_optimization_run]

end Engine
